import Mathlib

/-!
Verification of the Dashboard component of the PrepTrack placement-preparation
dashboard (src/componentscomponents/Dashboard.tsx).

The development shallowly embeds the logic core of the component:
the track matcher (`activeTracks`), the progress aggregator
(`globalCompletionRate`, `trackRate`), the chat assistant controller
(`handleSendMessage`, modelled as the synchronous phase `sendStart` and the
asynchronous completion `sendFinish`), and the motivation orchestrator
(`fetchMotivation`, modelled as `fetchStart` / `fetchFinish`).

JavaScript string helpers are modelled per character: `jsToLower` models
`String.prototype.toLowerCase` and `jsTrim` models `String.prototype.trim`.
`jsRound` models `Math.round` on a non-negative rational given as
numerator/denominator (round half up). Division-by-zero guards in the source
are modelled by explicit `if` tests, exactly as the code writes them.
-/

namespace PrepTrack

/-- Model of JavaScript `s.toLowerCase()`: lowercase every character. -/
def jsToLower (s : String) : String := ⟨s.data.map Char.toLower⟩

/-- Model of JavaScript `s.trim()`: drop whitespace from both ends. -/
def jsTrim (s : String) : String :=
  ⟨((s.data.dropWhile Char.isWhitespace).reverse.dropWhile Char.isWhitespace).reverse⟩

/-- Model of JavaScript `Math.round (num / den)` for natural `num` and positive
`den`: round half away from zero, i.e. floor of `num / den + 1 / 2`. -/
def jsRound (num den : Nat) : Nat := (2 * num + den) / (2 * den)

/-- A curriculum topic; only its id is relevant to the Dashboard logic. -/
structure Topic where
  id : String
  deriving DecidableEq

/-- A catalogue entry of `CURRICULUM` (domain, level, language/technology and
topic list), as consumed by the Dashboard. Domains are modelled as strings,
matching the string comparisons in the source (`path.domain === 'ML'`). -/
structure CurriculumTrack where
  id : String
  domain : String
  level : String
  languageOrTech : String
  topics : List Topic
  deriving DecidableEq

/-- Per-domain learner preference. In the source `level`, `language` and
`libraries` may be absent; absence collapses with the empty value because the
code reads them through `config.level || 'Beginner'`, `config.language || ''`
and `config.libraries || []`, and `undefined` and `""`/`[]` are equally falsy. -/
structure DomainConfig where
  level : String
  language : String
  libraries : List String
  deriving DecidableEq

/-- Learner preferences: a keyed collection of per-domain configs
(`prefs.configs[domain]`), keys unique. -/
structure Preferences where
  configs : List (String × DomainConfig)
  deriving DecidableEq

/-- The `progress` prop of the Dashboard. -/
structure UserProgress where
  activeDomains : List String
  preferences : Option Preferences
  completedTopicIds : List String
  deriving DecidableEq

/-- The filter predicate of the `activeTracks` memo (Dashboard.tsx lines
112-128), transcribed clause for clause. -/
def trackMatches (activeDomains : List String) (prefs : Preferences)
    (path : CurriculumTrack) : Bool :=
  if !(activeDomains.contains path.domain) then false
  else
    match prefs.configs.lookup path.domain with
    | none => false
    | some config =>
      let userLevel := if config.level = "" then "Beginner" else config.level
      if jsToLower path.level != jsToLower userLevel then false
      else if path.domain = "ML" then
        config.libraries.contains path.languageOrTech
      else
        let userLanguage := config.language
        jsToLower path.languageOrTech == jsToLower userLanguage

/-- The `activeTracks` memo (Dashboard.tsx lines 108-129): empty when
`preferences` is absent, otherwise the catalogue filtered by `trackMatches`. -/
def activeTracks (progress : UserProgress) (curriculum : List CurriculumTrack) :
    List CurriculumTrack :=
  match progress.preferences with
  | none => []
  | some prefs => curriculum.filter (trackMatches progress.activeDomains prefs)

/-- Dashboard.tsx line 131: `activeTracks.reduce((acc, curr) => acc + curr.topics.length, 0)`. -/
def totalPossibleTopics (tracks : List CurriculumTrack) : Nat :=
  tracks.foldl (fun acc curr => acc + curr.topics.length) 0

/-- Dashboard.tsx line 132: `progress.completedTopicIds.length`. -/
def totalCompletedTopics (completedTopicIds : List String) : Nat :=
  completedTopicIds.length

/-- Dashboard.tsx lines 133-135: the global completion percentage shown as
Mastery. Note the numerator is the length of the whole `completedTopicIds`
list, with no membership test against the matched tracks. -/
def globalCompletionRate (tracks : List CurriculumTrack)
    (completedTopicIds : List String) : Nat :=
  if totalPossibleTopics tracks > 0 then
    jsRound (totalCompletedTopics completedTopicIds * 100) (totalPossibleTopics tracks)
  else 0

/-- Spec-side global completion, written from the specification words: the
numerator counts only those completed ids that belong to a topic of some
matched track. Kept separate from `globalCompletionRate` for comparison. -/
def specGlobalCompletion (tracks : List CurriculumTrack)
    (completedTopicIds : List String) : Nat :=
  let totalTopics := totalPossibleTopics tracks
  let completedInMatched :=
    (completedTopicIds.filter
      (fun i => tracks.any (fun tr => tr.topics.any (fun tp => tp.id == i)))).length
  if totalTopics > 0 then jsRound (completedInMatched * 100) totalTopics else 0

/-- Dashboard.tsx line 228: topics of the track whose id is in
`completedTopicIds`. -/
def completedInTrack (path : CurriculumTrack) (completedTopicIds : List String) : Nat :=
  (path.topics.filter (fun t => completedTopicIds.contains t.id)).length

/-- Dashboard.tsx line 229: per-track completion percentage. -/
def trackRate (path : CurriculumTrack) (completedTopicIds : List String) : Nat :=
  if path.topics.length > 0 then
    jsRound (completedInTrack path completedTopicIds * 100) path.topics.length
  else 0

/-- Message roles of the chat history (`role: 'user' | 'bot'` in the source;
the specification calls the bot side "assistant"). -/
inductive Role where
  | user
  | bot
  deriving DecidableEq

/-- One entry of `chatHistory`. -/
structure ChatMessage where
  role : Role
  text : String
  deriving DecidableEq

/-- The chat controller state: `chatInput`, `chatHistory` and `isSending`. -/
structure ChatState where
  chatInput : String
  chatHistory : List ChatMessage
  isSending : Bool
  deriving DecidableEq

/-- Dashboard.tsx line 98, the apology fallback used when `response.text` is
empty or absent. -/
def APOLOGY_FALLBACK : String := "I'm sorry, I couldn't process that request right now."

/-- Dashboard.tsx line 102, the fallback appended when the request throws. -/
def CONNECTION_FALLBACK : String := "Error connecting to AI service. Please check your connection."

/-- Outcome of the `generateContent` request: resolution with an optional
`response.text`, or a thrown error. -/
inductive ChatOutcome where
  | success (text : Option String)
  | failure
  deriving DecidableEq

/-- The bot text appended for an outcome: `response.text || apology` on
success (JavaScript `||` falls through on `undefined` and on `""`) and the
connection-error text on a thrown failure. -/
def botReply : ChatOutcome → String
  | ChatOutcome.success (some t) => if t = "" then APOLOGY_FALLBACK else t
  | ChatOutcome.success none => APOLOGY_FALLBACK
  | ChatOutcome.failure => CONNECTION_FALLBACK

/-- Synchronous phase of `handleSendMessage` (Dashboard.tsx lines 80-86), up
to the first await: the guard `if (!chatInput.trim() || isSending) return`
makes the call a no-op, otherwise the user message is appended, the draft is
cleared and `isSending` is raised. The Boolean result records whether the
call was accepted (a request was issued). -/
def sendStart (s : ChatState) : ChatState × Bool :=
  if jsTrim s.chatInput == "" || s.isSending then (s, false)
  else ({ chatInput := "",
          chatHistory := s.chatHistory ++ [⟨Role.user, s.chatInput⟩],
          isSending := true }, true)

/-- Completion of an accepted `handleSendMessage` call (Dashboard.tsx lines
88-105): append the bot reply for the outcome and, in `finally`, reset
`isSending`. -/
def sendFinish (s : ChatState) (o : ChatOutcome) : ChatState :=
  { s with chatHistory := s.chatHistory ++ [⟨Role.bot, botReply o⟩],
           isSending := false }

/-- Events the chat controller reacts to: the user editing the draft input,
a send attempt, and the settlement of the in-flight request (which can only
occur while a request is in flight, i.e. while `isSending` is true). -/
inductive ChatEvent where
  | setInput (t : String)
  | send
  | settle (o : ChatOutcome)
  deriving DecidableEq

/-- Small-step semantics of the chat controller on the event-loop: each event
transforms the state; a `settle` while no request is in flight changes
nothing. -/
def chatStep (s : ChatState) : ChatEvent → ChatState
  | ChatEvent.setInput t => { s with chatInput := t }
  | ChatEvent.send => (sendStart s).1
  | ChatEvent.settle o => if s.isSending then sendFinish s o else s

/-- Initial chat state (`useState('')`, `useState([])`, `useState(false)`). -/
def initChatState : ChatState := ⟨"", [], false⟩

/-- Run of the chat controller from its initial state over a list of events. -/
def runChat (events : List ChatEvent) : ChatState :=
  events.foldl chatStep initChatState

/-- Motivation orchestrator state: `motivation` text and loading flag. -/
structure MotivationState where
  motivation : String
  isMotivationLoading : Bool
  deriving DecidableEq

/-- Dashboard.tsx line 59, the fallback used when the query resolves empty. -/
def MOTIVATION_EMPTY_FALLBACK : String :=
  "Consistency is the key to mastering your career path."

/-- Dashboard.tsx line 62, the fallback used when session creation or the
query throws. -/
def MOTIVATION_ERROR_FALLBACK : String :=
  "Success is the sum of small efforts, repeated day-in and day-out."

/-- Outcome of one motivation fetch: the query resolves with an optional
quote, or session creation / query throws (both land in the same `catch`). -/
inductive FetchOutcome where
  | success (quote : Option String)
  | failure
  deriving DecidableEq

/-- Start of `fetchMotivation` (Dashboard.tsx line 51): raise the flag. -/
def fetchStart (s : MotivationState) : MotivationState :=
  { s with isMotivationLoading := true }

/-- Completion of `fetchMotivation` (Dashboard.tsx lines 52-65): on success
set `quote || fallback`, on a thrown error set the error fallback; in
`finally` the loading flag is lowered on every path. -/
def fetchFinish (s : MotivationState) : FetchOutcome → MotivationState
  | FetchOutcome.success q =>
    { s with
      motivation :=
        match q with
        | some t => if t = "" then MOTIVATION_EMPTY_FALLBACK else t
        | none => MOTIVATION_EMPTY_FALLBACK,
      isMotivationLoading := false }
  | FetchOutcome.failure =>
    { s with motivation := MOTIVATION_ERROR_FALLBACK, isMotivationLoading := false }

/-- The matcher predicate exactly as claim C2 words it: the track's domain is
in `activeDomains`, a config exists for it, levels agree case-insensitively
with `"Beginner"` substituted for an empty level, and the technology clause is
exact case-sensitive membership in `libraries` for the ML domain and
case-insensitive equality with `language` (empty default) otherwise. -/
def claimedMatch (activeDomains : List String) (prefs : Preferences)
    (t : CurriculumTrack) : Bool :=
  activeDomains.contains t.domain &&
  (match prefs.configs.lookup t.domain with
   | none => false
   | some c =>
     (jsToLower t.level == jsToLower (if c.level = "" then "Beginner" else c.level)) &&
     (if t.domain = "ML" then c.libraries.contains t.languageOrTech
      else jsToLower t.languageOrTech == jsToLower c.language))

theorem trackMatches_eq_claimedMatch (activeDomains : List String)
    (prefs : Preferences) (t : CurriculumTrack) :
    trackMatches activeDomains prefs t = claimedMatch activeDomains prefs t := by
  unfold trackMatches claimedMatch
  cases hdom : activeDomains.contains t.domain with
  | false => simp [hdom]
  | true =>
    simp only [hdom, Bool.not_true, Bool.false_eq_true, if_false, Bool.true_and]
    cases hcfg : prefs.configs.lookup t.domain with
    | none => rfl
    | some c =>
      simp only
      cases hlvl : jsToLower t.level == jsToLower (if c.level = "" then "Beginner" else c.level) with
      | false => simp [bne, hlvl]
      | true => simp [bne, hlvl]

/-- Claim C2: with `preferences` absent the matcher yields the empty sequence,
and otherwise it yields, in catalogue order, exactly the tracks satisfying the
claimed domain membership, config existence, case-insensitive level (with the
Beginner default) and domain-specific technology conditions. -/
theorem activeTracks_spec (progress : UserProgress)
    (curriculum : List CurriculumTrack) :
    activeTracks progress curriculum =
      match progress.preferences with
      | none => []
      | some prefs => curriculum.filter (claimedMatch progress.activeDomains prefs) := by
  unfold activeTracks
  cases progress.preferences with
  | none => rfl
  | some prefs =>
    simp only [List.filter_congr
      (fun t _ => trackMatches_eq_claimedMatch progress.activeDomains prefs t)]

/-- A matched track with a single topic `t1`, used to evaluate the global
completion formula on a concrete input. -/
def c1Track : CurriculumTrack := ⟨"web-1", "Web", "Beginner", "JavaScript", [⟨"t1"⟩]⟩

/-- Claim C1: the specification counts only completed ids belonging to topics
of the matched tracks, but the code divides the length of the whole
`completedTopicIds` list by the matched-track topic total. With one matched
track of one topic and two completed ids `x`, `y` belonging to no matched
track, the code renders a Mastery of `round(100 * 2 / 1) = 200` percent while
the specified value is `round(100 * 0 / 1) = 0`. -/
theorem globalCompletionRate_counts_all_ids :
    globalCompletionRate [c1Track] ["x", "y"] = 200 ∧
    specGlobalCompletion [c1Track] ["x", "y"] = 0 := by
  exact ⟨by decide, by decide⟩

/-- Completed-in-track never exceeds the topic count. -/
theorem completedInTrack_le (path : CurriculumTrack) (ids : List String) :
    completedInTrack path ids ≤ path.topics.length :=
  List.length_filter_le _ _

/-- Rounded ratio is at most 100 when the numerator factor is at most the
denominator. -/
theorem jsRound_ratio_le (c len : Nat) (hc : c ≤ len) (hl : 0 < len) :
    jsRound (c * 100) len ≤ 100 := by
  unfold jsRound
  have h1 : 2 * (c * 100) + len ≤ 201 * len := by nlinarith
  calc (2 * (c * 100) + len) / (2 * len) ≤ (201 * len) / (2 * len) :=
        Nat.div_le_div_right h1
    _ = (len * 201) / (len * 2) := by ring_nf
    _ = 201 / 2 := Nat.mul_div_mul_left 201 2 hl
    _ = 100 := by norm_num

/-- Rounded ratio is exactly 100 when numerator factor and denominator agree. -/
theorem jsRound_ratio_full (len : Nat) (hl : 0 < len) :
    jsRound (len * 100) len = 100 := by
  unfold jsRound
  have h : 2 * (len * 100) + len = len + 2 * len * 100 := by ring
  rw [h, Nat.add_mul_div_left _ _ (show 0 < 2 * len by omega),
    Nat.div_eq_of_lt (by omega)]

/-- Claim C3: the per-track completion is an integer percent bounded by 100
(and by 0, trivially, as a natural number); it is the rounded ratio of
completed topics over total topics, is 0 on an empty topic list, and is 100
when every topic id of the track is completed. -/
theorem trackRate_spec (path : CurriculumTrack) (ids : List String) :
    trackRate path ids ≤ 100 ∧
    (path.topics = [] → trackRate path ids = 0) ∧
    (path.topics ≠ [] →
      trackRate path ids = jsRound (100 * completedInTrack path ids) path.topics.length) ∧
    (path.topics ≠ [] → (∀ t ∈ path.topics, ids.contains t.id) →
      trackRate path ids = 100) := by
  refine ⟨?_, ?_, ?_, ?_⟩
  · unfold trackRate
    by_cases h : path.topics.length > 0
    · rw [if_pos h]
      exact jsRound_ratio_le _ _ (completedInTrack_le path ids) h
    · rw [if_neg h]; omega
  · intro h
    unfold trackRate
    rw [h]
    rfl
  · intro h
    have hl : path.topics.length > 0 := List.length_pos.mpr h
    unfold trackRate
    rw [if_pos hl, Nat.mul_comm]
  · intro h hall
    have hl : path.topics.length > 0 := List.length_pos.mpr h
    have hfull : completedInTrack path ids = path.topics.length := by
      unfold completedInTrack
      rw [List.filter_eq_self.mpr hall]
    unfold trackRate
    rw [if_pos hl, hfull]
    exact jsRound_ratio_full _ hl

/-- Witness for claim C3 at concrete inputs: a fully completed two-topic track
scores 100 and a track with no topics scores 0. -/
theorem trackRate_spec_witness :
    trackRate ⟨"w1", "Web", "Beginner", "JavaScript", [⟨"t1"⟩, ⟨"t2"⟩]⟩ ["t1", "t2"] = 100 ∧
    trackRate ⟨"e1", "Web", "Beginner", "JavaScript", []⟩ ["t1"] = 0 :=
  ⟨(trackRate_spec ⟨"w1", "Web", "Beginner", "JavaScript", [⟨"t1"⟩, ⟨"t2"⟩]⟩ ["t1", "t2"]).2.2.2
      (by decide) (by decide),
   (trackRate_spec ⟨"e1", "Web", "Beginner", "JavaScript", []⟩ ["t1"]).2.1 rfl⟩

/-- Lowercasing a string yields the empty string only for the empty string. -/
theorem jsToLower_eq_empty {s : String} (h : jsToLower s = "") : s = "" := by
  unfold jsToLower at h
  have hd : s.data.map Char.toLower = [] := congrArg String.data h
  have hnil : s.data = [] := List.map_eq_nil_iff.mp hd
  cases s
  simp_all

/-- A Web track whose `languageOrTech` is the empty string. -/
def c8Track : CurriculumTrack := ⟨"w0", "Web", "Beginner", "", [⟨"t1"⟩]⟩

/-- Progress whose Web config has an empty level, an empty language and no
libraries. -/
def c8Progress : UserProgress := ⟨["Web"], some ⟨[("Web", ⟨"", "", []⟩)]⟩, []⟩

/-- Counterexample to claim C8 as stated: with a non-ML domain whose config
has an empty language and empty libraries, a track of that domain whose own
`languageOrTech` is the empty string is NOT excluded — the code compares
`languageOrTech.toLowerCase()` with the default empty string and the two are
equal, so the track is matched. -/
theorem c8_counterexample : activeTracks c8Progress [c8Track] = [c8Track] := by
  decide

/-- Claim C8 as amended: for a non-ML domain whose config has an empty
language and empty libraries, every track of that domain whose
`languageOrTech` is non-empty is excluded from the match result (only a track
whose own `languageOrTech` is itself empty can match the empty default). -/
theorem nonML_empty_config_excludes (progress : UserProgress)
    (prefs : Preferences) (curriculum : List CurriculumTrack)
    (t : CurriculumTrack) (c : DomainConfig)
    (hp : progress.preferences = some prefs)
    (hc : prefs.configs.lookup t.domain = some c)
    (hml : t.domain ≠ "ML")
    (hlang : c.language = "")
    (_hlib : c.libraries = [])
    (htech : t.languageOrTech ≠ "") :
    t ∉ activeTracks progress curriculum := by
  intro hmem
  unfold activeTracks at hmem
  rw [hp] at hmem
  have hmatch : claimedMatch progress.activeDomains prefs t = true := by
    rw [← trackMatches_eq_claimedMatch]
    exact List.of_mem_filter hmem
  unfold claimedMatch at hmatch
  rw [hc] at hmatch
  simp only [Bool.and_eq_true] at hmatch
  obtain ⟨-, h2⟩ := hmatch
  rw [if_neg hml, hlang] at h2
  obtain ⟨-, h3⟩ := h2
  have hlow : jsToLower t.languageOrTech = jsToLower "" := by
    exact eq_of_beq h3
  exact htech (jsToLower_eq_empty hlow)

/-- Witness for the amended claim C8: a non-empty-technology Web track is
excluded under the all-empty Web config. -/
theorem nonML_empty_config_excludes_witness :
    (⟨"w2", "Web", "Beginner", "JavaScript", [⟨"t1"⟩]⟩ : CurriculumTrack) ∉
      activeTracks c8Progress [⟨"w2", "Web", "Beginner", "JavaScript", [⟨"t1"⟩]⟩] :=
  nonML_empty_config_excludes c8Progress ⟨[("Web", ⟨"", "", []⟩)]⟩ _ _ ⟨"", "", []⟩
    rfl (by decide) (by decide) rfl rfl (by decide)

/-- Claim C7: a send attempt with a whitespace-only draft, or while a request
is already in flight, is a no-op — the state (history, flag, draft) is
unchanged and no request is issued (the acceptance flag is false). -/
theorem sendStart_noop (s : ChatState)
    (h : jsTrim s.chatInput = "" ∨ s.isSending = true) :
    sendStart s = (s, false) := by
  unfold sendStart
  rcases h with h | h <;> simp [h]

/-- Witness for claim C7: a whitespace-only draft is rejected outright. -/
theorem sendStart_noop_witness :
    sendStart ⟨" ", [], false⟩ = (⟨" ", [], false⟩, false) :=
  sendStart_noop ⟨" ", [], false⟩ (Or.inl (by decide))

/-- Claim C4: requests are strictly serialized. While `isSending` is true a
send attempt is rejected as a no-op; settling any request lowers `isSending`
so a later attempt is accepted again; and within an accepted call the user
message is appended synchronously before the reply settles, so the turn adds
the user message and then the bot message, in that order. -/
theorem chat_serialized (s : ChatState) :
    (s.isSending = true → sendStart s = (s, false)) ∧
    (∀ o : ChatOutcome, (sendFinish s o).isSending = false) ∧
    (s.isSending = false → jsTrim s.chatInput ≠ "" →
      (sendStart s).2 = true ∧
      (sendStart s).1.chatHistory = s.chatHistory ++ [⟨Role.user, s.chatInput⟩] ∧
      ∀ o : ChatOutcome, (sendFinish (sendStart s).1 o).chatHistory =
        s.chatHistory ++ [⟨Role.user, s.chatInput⟩, ⟨Role.bot, botReply o⟩]) := by
  refine ⟨?_, fun o => rfl, ?_⟩
  · intro h
    unfold sendStart
    simp [h]
  · intro hs hin
    have hstart : sendStart s =
        ({ chatInput := "",
           chatHistory := s.chatHistory ++ [⟨Role.user, s.chatInput⟩],
           isSending := true }, true) := by
      unfold sendStart
      simp [hs, hin]
    refine ⟨by rw [hstart], by rw [hstart], fun o => ?_⟩
    rw [hstart]
    simp [sendFinish]

/-- Witness for claim C4: the same draft is rejected while sending and
accepted while idle. -/
theorem chat_serialized_witness :
    sendStart ⟨"hi", [], true⟩ = (⟨"hi", [], true⟩, false) ∧
    (sendStart ⟨"hi", [], false⟩).2 = true :=
  ⟨(chat_serialized ⟨"hi", [], true⟩).1 rfl,
   ((chat_serialized ⟨"hi", [], false⟩).2.2 rfl (by decide)).1⟩

/-- Claim C5: for an accepted call, a successful non-empty reply is appended
verbatim, an empty or absent reply is replaced by the apology fallback, a
thrown failure by the connection fallback, and `isSending` is lowered on
every one of these exit paths. -/
theorem sendFinish_outcomes (s : ChatState)
    (_hs : s.isSending = false) (_hin : jsTrim s.chatInput ≠ "") :
    (∀ t : String, t ≠ "" →
      (sendFinish (sendStart s).1 (ChatOutcome.success (some t))).chatHistory =
        (sendStart s).1.chatHistory ++ [⟨Role.bot, t⟩]) ∧
    ((sendFinish (sendStart s).1 (ChatOutcome.success (some ""))).chatHistory =
        (sendStart s).1.chatHistory ++ [⟨Role.bot, APOLOGY_FALLBACK⟩]) ∧
    ((sendFinish (sendStart s).1 (ChatOutcome.success none)).chatHistory =
        (sendStart s).1.chatHistory ++ [⟨Role.bot, APOLOGY_FALLBACK⟩]) ∧
    ((sendFinish (sendStart s).1 ChatOutcome.failure).chatHistory =
        (sendStart s).1.chatHistory ++ [⟨Role.bot, CONNECTION_FALLBACK⟩]) ∧
    (∀ o : ChatOutcome, (sendFinish (sendStart s).1 o).isSending = false) := by
  refine ⟨?_, rfl, rfl, rfl, fun o => rfl⟩
  intro t ht
  simp [sendFinish, botReply, ht]

/-- Witness for claim C5 on an accepted call with a concrete non-empty
reply. -/
theorem sendFinish_outcomes_witness :
    (sendFinish (sendStart ⟨"hi", [], false⟩).1 (ChatOutcome.success (some "Sure."))).chatHistory =
      (sendStart ⟨"hi", [], false⟩).1.chatHistory ++ [⟨Role.bot, "Sure."⟩] :=
  (sendFinish_outcomes ⟨"hi", [], false⟩ rfl (by decide)).1 "Sure." (by decide)

/-- Claim C9: the history is append-only — every chat-controller event either
leaves the history unchanged or appends a single message at its end; no
earlier entry is mutated, removed or reordered. -/
theorem chatHistory_append_only (s : ChatState) (e : ChatEvent) :
    ∃ tail, (chatStep s e).chatHistory = s.chatHistory ++ tail ∧ tail.length ≤ 1 := by
  cases e with
  | setInput t => exact ⟨[], by simp [chatStep], by simp⟩
  | send =>
    cases hcond : (jsTrim s.chatInput == "" || s.isSending) with
    | true => exact ⟨[], by simp [chatStep, sendStart, hcond], by simp⟩
    | false =>
      exact ⟨[⟨Role.user, s.chatInput⟩],
        by simp [chatStep, sendStart, hcond], by simp⟩
  | settle o =>
    cases hs : s.isSending with
    | true =>
      exact ⟨[⟨Role.bot, botReply o⟩], by simp [chatStep, sendFinish, hs], by simp⟩
    | false => exact ⟨[], by simp [chatStep, hs], by simp⟩

/-- Claim C6: when session creation or the query throws, the motivation text
becomes the fixed error fallback, which differs from the empty-reply
fallback, and the loading flag is lowered on every exit path of the fetch. -/
theorem fetchFinish_failure_spec (s : MotivationState) :
    (fetchFinish s FetchOutcome.failure).motivation = MOTIVATION_ERROR_FALLBACK ∧
    MOTIVATION_ERROR_FALLBACK ≠ MOTIVATION_EMPTY_FALLBACK ∧
    (∀ o : FetchOutcome, (fetchFinish s o).isMotivationLoading = false) := by
  refine ⟨rfl, by decide, fun o => ?_⟩
  cases o with
  | success q => rfl
  | failure => rfl

/-- Witness for claim C6 at the initial motivation state. -/
theorem fetchFinish_failure_spec_witness :
    (fetchFinish ⟨"Loading your daily focus...", true⟩ FetchOutcome.failure).motivation =
      MOTIVATION_ERROR_FALLBACK :=
  (fetchFinish_failure_spec ⟨"Loading your daily focus...", true⟩).1

/-- The opposite chat role. -/
def flipRole : Role → Role
  | Role.user => Role.bot
  | Role.bot => Role.user

/-- Strict user/bot alternation of a message list, starting from an expected
role. -/
def altB (r : Role) : List ChatMessage → Bool
  | [] => true
  | m :: ms => (m.role == r) && altB (flipRole r) ms

/-- Role expected at position `n` of an alternation starting with `r`. -/
def endRole (r : Role) (n : Nat) : Role :=
  if n % 2 = 0 then r else flipRole r

theorem flipRole_flipRole (r : Role) : flipRole (flipRole r) = r := by
  cases r <;> rfl

theorem endRole_flip (r : Role) (n : Nat) :
    endRole (flipRole r) n = endRole r (n + 1) := by
  unfold endRole
  rcases Nat.mod_two_eq_zero_or_one n with h | h
  · have h2 : (n + 1) % 2 = 1 := by omega
    simp [h, h2]
  · have h2 : (n + 1) % 2 = 0 := by omega
    simp [h, h2, flipRole_flipRole]

theorem altB_append (l : List ChatMessage) (r : Role) (m : ChatMessage) :
    altB r (l ++ [m]) = (altB r l && (m.role == endRole r l.length)) := by
  induction l generalizing r with
  | nil => simp [altB, endRole]
  | cons x xs ih =>
    simp only [List.cons_append, altB, List.length_cons, List.append_eq]
    rw [ih (flipRole r), endRole_flip, Bool.and_assoc]

/-- Invariant tying the chat flag to the history shape: the history always
alternates user, bot, user, bot, … and its parity matches the flag — even
length while idle, odd length (ending on the just-sent user message) while a
request is in flight. -/
def ChatInv (s : ChatState) : Prop :=
  altB Role.user s.chatHistory = true ∧
  s.chatHistory.length % 2 = (if s.isSending then 1 else 0)

theorem chatStep_inv (s : ChatState) (e : ChatEvent) (h : ChatInv s) :
    ChatInv (chatStep s e) := by
  obtain ⟨halt, hpar⟩ := h
  cases e with
  | setInput t => exact ⟨halt, hpar⟩
  | send =>
    cases hcond : (jsTrim s.chatInput == "" || s.isSending) with
    | true =>
      have hstep : chatStep s ChatEvent.send = s := by
        simp only [chatStep]
        unfold sendStart
        rw [hcond]
        simp
      rw [hstep]
      exact ⟨halt, hpar⟩
    | false =>
      have hsend : s.isSending = false := (Bool.or_eq_false_iff.mp hcond).2
      have hstep : chatStep s ChatEvent.send =
          { chatInput := "",
            chatHistory := s.chatHistory ++ [⟨Role.user, s.chatInput⟩],
            isSending := true } := by
        simp only [chatStep]
        unfold sendStart
        rw [hcond]
        simp
      rw [hsend] at hpar
      simp only [Bool.false_eq_true, if_false] at hpar
      rw [hstep]
      constructor
      · simp only [altB_append, halt, Bool.true_and]
        simp [endRole, hpar]
      · simp only [List.length_append, List.length_singleton, if_pos]
        omega
  | settle o =>
    cases hs : s.isSending with
    | false =>
      have hstep : chatStep s (ChatEvent.settle o) = s := by
        simp [chatStep, hs]
      rw [hstep]
      exact ⟨halt, hpar⟩
    | true =>
      have hstep : chatStep s (ChatEvent.settle o) = sendFinish s o := by
        simp [chatStep, hs]
      rw [hs] at hpar
      simp only [if_true] at hpar
      rw [hstep]
      unfold sendFinish
      constructor
      · simp only [altB_append, halt, Bool.true_and]
        simp [endRole, hpar, flipRole]
      · simp only [List.length_append, List.length_singleton,
          Bool.false_eq_true, if_false]
        omega

theorem runChat_inv_aux (events : List ChatEvent) (s : ChatState)
    (h : ChatInv s) : ChatInv (events.foldl chatStep s) := by
  induction events generalizing s with
  | nil => exact h
  | cons e es ih => exact ih (chatStep s e) (chatStep_inv s e h)

/-- Claim C10: in every quiescent state reachable from the initial chat state
(no request in flight), the history has even length and strictly alternates
user, bot, user, bot, … beginning with a user message — each accepted turn
contributes exactly one user message followed by one bot message, on every
outcome. -/
theorem runChat_quiescent_alternates (events : List ChatEvent)
    (h : (runChat events).isSending = false) :
    altB Role.user (runChat events).chatHistory = true ∧
    (runChat events).chatHistory.length % 2 = 0 := by
  have hinv : ChatInv (runChat events) :=
    runChat_inv_aux events initChatState ⟨rfl, rfl⟩
  obtain ⟨halt, hpar⟩ := hinv
  rw [h] at hpar
  simp only [if_neg (Bool.false_ne_true)] at hpar
  exact ⟨halt, hpar⟩

/-- Witness for claim C10: one full turn (type, send, settle with a thrown
failure) ends idle with the two-message alternating history. -/
theorem runChat_quiescent_alternates_witness :
    altB Role.user
      (runChat [ChatEvent.setInput "hi", ChatEvent.send,
        ChatEvent.settle ChatOutcome.failure]).chatHistory = true ∧
    (runChat [ChatEvent.setInput "hi", ChatEvent.send,
        ChatEvent.settle ChatOutcome.failure]).chatHistory.length % 2 = 0 :=
  runChat_quiescent_alternates
    [ChatEvent.setInput "hi", ChatEvent.send, ChatEvent.settle ChatOutcome.failure]
    (by decide)

end PrepTrack
